import Mathlib

/-!
# Verification of the PodofoBrowser tree-table adapter (`pdfobjectmodel.cpp`)

Shallow embedding of the `PdfObjectModel` adapter and its internal
`PdfObjectModelTree` / `PdfObjectModelNode` helper classes, translated from
`src/unnamed/part_001` (the current version of `pdfobjectmodel.cpp`; the copy
under `src/podofobrowser/trunk` is an older historical revision of the same
file and is noted where it differs).

The external PoDoFo library is out of scope for the repository and is treated
as a black box: PDF variants are modelled as a closed tagged union, the
document's indirect-object table as an association list, and the external
tokenizer's outcome (`PdfTokenizer::GetNextVariant`, which either throws a
`PdfError` or produces a variant) is passed in as an `Except` value.
-/

/-! ## PDF variants (external library data model, per spec section 3) -/

/-- The closed tagged union of PDF object values exposed by the external
library (`PdfVariant` / `PdfObject` data types).  The floating-point payload
of `realV` and the byte payload of `rawV` play no role in any verified
property and are abstracted away. -/
inductive PdfVariant where
  | nullV
  | boolV (b : Bool)
  | numberV (n : Int)
  | realV
  | strV (s : String)
  | hexV (s : String)
  | nameV (s : String)
  | arrayV (elems : List PdfVariant)
  | dictV (kvs : List (String × PdfVariant))
  | refV (objNum genNum : Nat)
  | rawV

namespace PdfVariant

/-- `PdfObject::IsDictionary`. -/
def isDictionary : PdfVariant → Bool
  | .dictV _ => true
  | _ => false

/-- `PdfObject::IsArray`. -/
def isArray : PdfVariant → Bool
  | .arrayV _ => true
  | _ => false

/-- `PdfObject::IsReference`. -/
def isReference : PdfVariant → Bool
  | .refV _ _ => true
  | _ => false

/-- `PdfObject::GetDictionary().GetKeys()`: the ordered key/value pairs of a
dictionary object (empty for non-dictionaries, which in C++ would throw). -/
def getDict : PdfVariant → List (String × PdfVariant)
  | .dictV kvs => kvs
  | _ => []

/-- `PdfObject::GetArray()`: the elements of an array object (empty for
non-arrays, which in C++ would throw). -/
def getArr : PdfVariant → List PdfVariant
  | .arrayV xs => xs
  | _ => []

/-- `PdfObject::GetReference()`: the (object number, generation number) pair
of a reference object. -/
def getReference : PdfVariant → Option (Nat × Nat)
  | .refV a b => some (a, b)
  | _ => none

end PdfVariant

/-- `PdfDictionary::HasKey`. -/
def dictHasKey (kvs : List (String × PdfVariant)) (k : String) : Bool :=
  (kvs.find? (fun p => p.1 == k)).isSome

/-- `PdfDictionary::GetKey`: the value stored under `k`, or `none`
(a null `PdfObject*`) when the key is absent. -/
def dictGetKey (kvs : List (String × PdfVariant)) (k : String) : Option PdfVariant :=
  (kvs.find? (fun p => p.1 == k)).map (·.2)

/-! ## Documents and reference resolution (external library) -/

/-- A PoDoFo `PdfDocument` as consumed by the adapter: a trailer object and
the table of indirect objects keyed by (object number, generation number). -/
structure Document where
  trailer : PdfVariant
  objects : List ((Nat × Nat) × PdfVariant)

/-- `doc->GetObjects().GetObject(ref)`: resolve an indirect reference to its
target object, or `none` (a null pointer) for a dangling reference. -/
def resolve (doc : Document) (r : Nat × Nat) : Option PdfVariant :=
  (doc.objects.find? (fun p => decide (p.1 = r))).map (·.2)

/-! ## Model nodes (`PdfObjectModelNode`) -/

/-- The three parentage kinds of a model node. -/
inductive ParentageType where
  | PT_Contained
  | PT_Referenced
  | PT_Root
deriving DecidableEq

/-- What determines a child node created by `PdfObjectModelNode::AddNode`:
the wrapped object, the parentage kind, and the key in the containing
dictionary (`PdfName::KeyNull`, i.e. the empty name, for array elements and
referenced objects). -/
structure ChildSpec where
  obj : PdfVariant
  pt : ParentageType
  parentKey : String

/-- The mutable bookkeeping of one `PdfObjectModelNode` apart from the wrapped
object itself: `cache = some l` models `m_bChildrenLoaded = true` with child
list `l` (the two are always updated together in the source), and
`pretendEmpty` models `m_bPretendEmpty`. -/
structure NodeCtl where
  cache : Option (List ChildSpec)
  pretendEmpty : Bool

/-- `PdfObjectModelNode::PopulateChildren`, from `src/unnamed/part_001`
(the current revision; the older trunk revision differs on dangling
references and reference cycles): a reference with follow-references on
yields the single resolved target as a `PT_Referenced` child or nothing when
resolution fails; dictionaries yield one `PT_Contained` child per key in
stored order; arrays one `PT_Contained` child per element in order; all other
types yield no children. -/
def PopulateChildren (followRefs : Bool) (doc : Document) (v : PdfVariant) :
    List ChildSpec :=
  if followRefs && v.isReference then
    match v.getReference with
    | some r =>
      match resolve doc r with
      | some referee => [⟨referee, .PT_Referenced, ""⟩]
      | none => []
    | none => []
  else if v.isDictionary then
    v.getDict.map (fun kv => ⟨kv.2, .PT_Contained, kv.1⟩)
  else if v.isArray then
    v.getArr.map (fun x => ⟨x, .PT_Contained, ""⟩)
  else
    []

/-- `PdfObjectModelNode::EnsureChildrenLoaded`: populate the child list if it
has not been populated yet. -/
def EnsureChildrenLoaded (followRefs : Bool) (doc : Document) (v : PdfVariant)
    (c : NodeCtl) : NodeCtl :=
  if c.cache.isSome then c
  else { c with cache := some (PopulateChildren followRefs doc v) }

/-- `PdfObjectModelNode::CountChildren`: 0 while pretend-empty (without
forcing population), otherwise the size of the (lazily loaded) child list.
Returns the count together with the node state after the call. -/
def CountChildren (followRefs : Bool) (doc : Document) (v : PdfVariant)
    (c : NodeCtl) : Nat × NodeCtl :=
  if c.pretendEmpty then (0, c)
  else
    let c' := EnsureChildrenLoaded followRefs doc v c
    ((c'.cache.getD []).length, c')

/-- `PdfObjectModelNode::GetChild`: `none` (a null pointer) while
pretend-empty, otherwise the `n`-th entry of the (lazily loaded) child list,
or `none` when `n` is out of range. -/
def GetChild (followRefs : Bool) (doc : Document) (v : PdfVariant)
    (c : NodeCtl) (n : Nat) : Option ChildSpec × NodeCtl :=
  if c.pretendEmpty then (none, c)
  else
    let c' := EnsureChildrenLoaded followRefs doc v c
    ((c'.cache.getD [])[n]?, c')

/-- `PdfObjectModelNode::InvalidateChildren`: delete all children and mark the
child list as not populated (`m_children.clear(); m_bChildrenLoaded = false`).
The pretend-empty flag is not touched. -/
def InvalidateChildren (c : NodeCtl) : NodeCtl :=
  { cache := none, pretendEmpty := c.pretendEmpty }

/-- `PdfObjectModelNode::SetPretendEmpty`. -/
def SetPretendEmpty (empty : Bool) (c : NodeCtl) : NodeCtl :=
  { c with pretendEmpty := empty }

/-- A node whose cached child list (if populated) agrees with what population
from its wrapped object would produce.  This is exactly the "underlying object
not mutated behind the cache's back" condition. -/
def ChildrenConsistent (followRefs : Bool) (doc : Document) (v : PdfVariant)
    (c : NodeCtl) : Prop :=
  ∀ l, c.cache = some l → l = PopulateChildren followRefs doc v

/-! ## `SetRawData` (raw value edit through the external tokenizer) -/

/-- External tokenizer error token (`PoDoFo::PdfError`), abstracted. -/
abbrev PdfError := String

/-- `PdfObjectModelNode::SetRawData`.  The external call
`PdfTokenizer::GetNextVariant` either throws a `PdfError` or produces a
variant; its outcome is the `parsed` argument.  On a parse failure the
exception propagates before anything is touched; on success the node's
children are invalidated, the wrapped object is overwritten with the parsed
variant, and `true` is returned.  The result is the returned value (or
propagated error) together with the wrapped object's value and the node
bookkeeping after the call. -/
def SetRawData (parsed : Except PdfError PdfVariant) (v : PdfVariant)
    (c : NodeCtl) : Except PdfError Bool × PdfVariant × NodeCtl :=
  match parsed with
  | .error e => (.error e, v, c)
  | .ok variant => (.ok true, variant, InvalidateChildren c)

/-! ## Element / key insertion (`PdfObjectModelNode`) -/

/-- `take row` elements, then the new element, then the rest: the effect of
`std::advance(it, row); a.insert(it, ...)` on the element list. -/
def listInsertAt (row : Nat) (x : PdfVariant) (xs : List PdfVariant) :
    List PdfVariant :=
  xs.take row ++ x :: xs.drop row

/-- `PdfObjectModelNode::CanInsertElement`:
`row > 0 && row <= CountChildren() && m_pObject->IsArray()`. -/
def CanInsertElement (followRefs : Bool) (doc : Document) (row : Int)
    (v : PdfVariant) (c : NodeCtl) : Bool :=
  decide (0 < row) &&
    decide (row ≤ ((CountChildren followRefs doc v c).1 : Int)) &&
    v.isArray

/-- `PdfObjectModelNode::InsertElement`: insert a null value into the
underlying array before position `row` (precondition `CanInsertElement`
asserted in the source; non-arrays are returned unchanged here, where the C++
would fail its assertion). -/
def InsertElement (row : Int) (v : PdfVariant) : PdfVariant :=
  match v with
  | .arrayV xs => .arrayV (listInsertAt row.toNat .nullV xs)
  | _ => v

/-- `PdfObjectModelNode::CanInsertKey`:
`keyName != PdfName::KeyNull && IsDictionary() && !HasKey(keyName)`
(`PdfName::KeyNull` is the empty name). -/
def CanInsertKey (keyName : String) (v : PdfVariant) : Bool :=
  (keyName != "") && v.isDictionary && !(dictHasKey v.getDict keyName)

/-- `PdfObjectModelNode::InsertKey`: `GetDictionary().AddKey(keyName, Null)`.
The key is absent (precondition `CanInsertKey`), so this adds a new
null-valued entry; non-dictionaries are returned unchanged here, where the
C++ would fail its assertion. -/
def InsertKeyObj (keyName : String) (v : PdfVariant) : PdfVariant :=
  match v with
  | .dictV kvs => .dictV (kvs ++ [(keyName, .nullV)])
  | _ => v

/-! ## Cell value rendering (`PdfObjectModel::data`, column 2, display role) -/

/-- The value-summary cell of `PdfObjectModel::data` (column 2, display
role), from `src/unnamed/part_001`.  `ts` is the external library's
`PdfVariant::ToString`; `none` models the null `QVariant` returned for
arrays. -/
def cellValue (ts : PdfVariant → String) (v : PdfVariant) : Option String :=
  if v.isDictionary then
    let part := fun (k : String) =>
      match dictGetKey v.getDict k with
      | some o => "/" ++ k ++ " " ++ ts o ++ " "
      | none => ""
    some ("<< " ++ part "Type" ++ part "SubType" ++ part "Name" ++ "... >>")
  else if v.isArray then
    none
  else
    some (ts v)

/-! ## The two-phase edit protocol over a pair of alias nodes

`PdfObjectModel::PrepareForSubtreeChange` / `SubtreeChanged` loop over all
live aliases of the edited node's object (the alias list includes the edited
node itself, and the source asserts every alias wraps the same `PdfObject`).
We model the protocol over a state holding the shared object's value and the
bookkeeping of two alias nodes; `edited` is the node the edit goes through
and `other` is a second alias of the same object. -/

structure AliasPair where
  obj : PdfVariant
  edited : NodeCtl
  other : NodeCtl

/-- Which of the two alias nodes is meant. -/
inductive WhichNode where
  | edited
  | other

/-- `GetObject()` of an alias node: both aliases wrap the same underlying
object (asserted in the source: `assert(obj == (*it)->GetObject())`). -/
def nodeObj (s : AliasPair) : WhichNode → PdfVariant :=
  fun _ => s.obj

/-- The value-summary cell the display sees for an alias node. -/
def nodeCellValue (ts : PdfVariant → String) (s : AliasPair) (w : WhichNode) :
    Option String :=
  cellValue ts (nodeObj s w)

/-- `PdfObjectModel::PrepareForSubtreeChange` on the edited node's index:
query the edited node's child count (populating it); if it is zero, return
immediately ("nothing to change"); otherwise every alias has its children
invalidated and its pretend-empty flag set (the row-removal announcements to
the display layer carry no model state). -/
def PrepareForSubtreeChange (followRefs : Bool) (doc : Document)
    (s : AliasPair) : AliasPair :=
  let r := CountChildren followRefs doc s.obj s.edited
  if r.1 = 0 then { s with edited := r.2 }
  else
    { s with
      edited := ⟨none, true⟩
      other := ⟨none, true⟩ }

/-- `PdfObjectModel::SubtreeChanged`: every alias has its pretend-empty flag
cleared and its child count queried (which lazily repopulates it from the
shared object); the row-insertion and cell-changed announcements carry no
model state. -/
def SubtreeChanged (followRefs : Bool) (doc : Document) (s : AliasPair) :
    AliasPair :=
  { s with
    edited := (CountChildren followRefs doc s.obj
      (SetPretendEmpty false s.edited)).2
    other := (CountChildren followRefs doc s.obj
      (SetPretendEmpty false s.other)).2 }

/-- The successful-edit path of `PdfObjectModel::setData`:
`PrepareForSubtreeChange`, then `SetRawData` on the edited node (which
invalidates that node's children and overwrites the shared object with the
parsed variant `v'`), then `SubtreeChanged`. -/
def setDataProtocol (followRefs : Bool) (doc : Document) (s : AliasPair)
    (v' : PdfVariant) : AliasPair :=
  let s₁ := PrepareForSubtreeChange followRefs doc s
  let s₂ : AliasPair := { s₁ with obj := v', edited := InvalidateChildren s₁.edited }
  SubtreeChanged followRefs doc s₂

/-! ## The tree's alias index (`PdfObjectModelTree`)

Node and object identities are abstracted to numeric ids (in C++ they are
pointers).  `live` is the set of currently constructed nodes with the object
each wraps; `nodeAliases` is the contents of the tree's
`std::multimap<const PdfObject*, PdfObjectModelNode*>`. -/

abbrev NodeId := Nat
abbrev ObjId := Nat

structure TreeAliasState where
  live : List (NodeId × ObjId)
  nodeAliases : List (ObjId × NodeId)

/-- `PdfObjectModelTree::CountAliases`: `m_nodeAliases.count(object)`. -/
def CountAliases (s : TreeAliasState) (o : ObjId) : Nat :=
  (s.nodeAliases.filter (fun p => decide (p.1 = o))).length

/-- The number of live nodes whose `GetObject()` identity is `o`. -/
def liveNodeCount (s : TreeAliasState) (o : ObjId) : Nat :=
  (s.live.filter (fun p => decide (p.2 = o))).length

/-- Remove the first occurrence of `a` (the effect of erasing the iterator
found for one `(object, node)` pair in the multimap, and of one node leaving
the live set). -/
def erasePair {α : Type} [DecidableEq α] : List α → α → List α
  | [], _ => []
  | x :: xs, a => if x = a then xs else erasePair xs a |>.cons x

/-- `PdfObjectModelTree::NodeCreated`: insert the `(object, node)` pair into
the alias multimap. -/
def NodeCreated (al : List (ObjId × NodeId)) (n : NodeId) (o : ObjId) :
    List (ObjId × NodeId) :=
  (o, n) :: al

/-- `PdfObjectModelTree::NodeDeleted`: look for the exact `(object, node)`
pair among the entries for `object` and erase it; if the pair is absent the
source throws `std::logic_error` ("Could not find object,node pair for node
being deleted in alias map"), modelled as `none`. -/
def NodeDeleted (al : List (ObjId × NodeId)) (n : NodeId) (o : ObjId) :
    Option (List (ObjId × NodeId)) :=
  if (o, n) ∈ al then some (erasePair al (o, n)) else none

/-- One model-node construction or destruction, as seen by the tree's alias
index.  Construction (`PdfObjectModelNode::PdfObjectModelNode`) adds the node
to the live set and calls `NodeCreated`, which inserts exactly one pair; the
node id is fresh (a new object's address).  Destruction
(`~PdfObjectModelNode`) requires the node to be live, removes it, and calls
`NodeDeleted`; the step only exists when `NodeDeleted` succeeds (otherwise
the program aborts with `std::logic_error`). -/
inductive TreeStep : TreeAliasState → TreeAliasState → Prop where
  | construct (s : TreeAliasState) (n : NodeId) (o : ObjId)
      (hfresh : ∀ p ∈ s.live, p.1 ≠ n) :
      TreeStep s ⟨(n, o) :: s.live, NodeCreated s.nodeAliases n o⟩
  | destruct (s : TreeAliasState) (n : NodeId) (o : ObjId)
      (hlive : (n, o) ∈ s.live) (al' : List (ObjId × NodeId))
      (hdel : NodeDeleted s.nodeAliases n o = some al') :
      TreeStep s ⟨erasePair s.live (n, o), al'⟩

/-- States reachable from the empty tree by any sequence of node
constructions and destructions. -/
def TreeReachable (s : TreeAliasState) : Prop :=
  Relation.ReflTransGen TreeStep ⟨[], []⟩ s

/-! ## Adapter-level `insertKey` (`PdfObjectModel::insertKey`) -/

/-- A `QModelIndex` as used by the adapter: either invalid or carrying the
internal pointer to a model node (abstracted to a node id). -/
inductive QModelIndex where
  | invalid
  | valid (nodeId : Nat)

/-- `QModelIndex::isValid`. -/
def QModelIndex.isValid : QModelIndex → Bool
  | .invalid => false
  | .valid _ => true

/-- `QModelIndex::internalPointer` (null for an invalid index). -/
def QModelIndex.internalPointer : QModelIndex → Option Nat
  | .invalid => none
  | .valid n => some n

/-- The adapter state `insertKey` acts on: the root node's id and each
node's wrapped object value.  The notification protocol around the mutation
(`PrepareForSubtreeChange` / `SubtreeChanged`) touches only node caches and
flags, never object values, and is omitted from this value-level state. -/
structure ModelState where
  rootId : Nat
  heap : List (Nat × PdfVariant)

/-- Look up the object wrapped by node `i`. -/
def heapGet (h : List (Nat × PdfVariant)) (i : Nat) : Option PdfVariant :=
  (h.find? (fun p => decide (p.1 = i))).map (·.2)

/-- Overwrite the object wrapped by node `i`. -/
def heapSet (h : List (Nat × PdfVariant)) (i : Nat) (v : PdfVariant) :
    List (Nat × PdfVariant) :=
  h.map (fun p => if p.1 = i then (i, v) else p)

/-- `PdfObjectModel::insertKey`, from `src/unnamed/part_001`, node selection
verbatim from the source:
`if (parent.isValid()) node = ...GetRoot(); else node = ...internalPointer();`
— so a *valid* index selects the root node and an invalid index yields a null
node pointer, on which the subsequent `CanInsertKey` call crashes (`none`).
If `CanInsertKey` holds on the selected node's object the key is added there
and `true` is returned, otherwise `false` with no mutation. -/
def modelInsertKey (st : ModelState) (keyName : String)
    (parent : QModelIndex) : Option (Bool × ModelState) :=
  let nodeId? : Option Nat :=
    if parent.isValid then some st.rootId else parent.internalPointer
  match nodeId? with
  | none => none
  | some nid =>
    match heapGet st.heap nid with
    | none => none
    | some v =>
      if CanInsertKey keyName v then
        some (true, { st with heap := heapSet st.heap nid (InsertKeyObj keyName v) })
      else
        some (false, st)

/-! ## Adapter construction (`PdfObjectModel::setupModelData`) -/

/-- The tree created by `setupModelData`: root object and the
follow-references flag passed to the `PdfObjectModelTree` constructor. -/
structure ModelTreeSpec where
  rootObj : PdfVariant
  followReferences : Bool

/-- `PdfObjectModel::setupModelData`: validate the trailer (dictionary, has a
`Root` key, whose value is a reference resolving to a dictionary), throwing
`std::invalid_argument` (modelled as `.error`) on each failed check, and
otherwise create a tree rooted at the resolved catalog with reference
following turned on. -/
def setupModelData (doc : Document) : Except String ModelTreeSpec :=
  if !doc.trailer.isDictionary then
    .error "Document invalid - non-dictionary trailer!"
  else if !dictHasKey doc.trailer.getDict "Root" then
    .error "passed document lacks catalog dictionary"
  else
    match dictGetKey doc.trailer.getDict "Root" with
    | none => .error "Invalid /Root trailer entry"
    | some catalogRef =>
      if !catalogRef.isReference then
        .error "Invalid /Root trailer entry"
      else
        match catalogRef.getReference with
        | none => .error "Invalid /Root trailer entry"
        | some r =>
          match resolve doc r with
          | none => .error "Invalid or non-dictionary referenced by /Root trailer entry"
          | some catalog =>
            if !catalog.isDictionary then
              .error "Invalid or non-dictionary referenced by /Root trailer entry"
            else
              .ok ⟨catalog, true⟩

/-! ## Helper lemmas -/

theorem dictHasKey_eq_isSome (kvs : List (String × PdfVariant)) (k : String) :
    dictHasKey kvs k = (dictGetKey kvs k).isSome := by
  unfold dictHasKey dictGetKey
  cases kvs.find? (fun p => p.1 == k) <;> rfl

theorem countChildren_arrayLength (followRefs : Bool) (doc : Document)
    (xs : List PdfVariant) (c : NodeCtl) (hpe : c.pretendEmpty = false)
    (hc : ChildrenConsistent followRefs doc (.arrayV xs) c) :
    (CountChildren followRefs doc (.arrayV xs) c).1 = xs.length := by
  obtain ⟨oc, pe⟩ := c
  cases pe
  · cases oc with
    | none =>
      simp [CountChildren, EnsureChildrenLoaded, PopulateChildren,
        PdfVariant.isReference, PdfVariant.isDictionary, PdfVariant.isArray,
        PdfVariant.getArr]
    | some l =>
      have hl := hc l rfl
      subst hl
      simp [CountChildren, EnsureChildrenLoaded, PopulateChildren,
        PdfVariant.isReference, PdfVariant.isDictionary, PdfVariant.isArray,
        PdfVariant.getArr]
  · simp at hpe

/-! ## Claim theorems -/

/-- C2: for every byte sequence whose parse fails, `SetRawData` propagates the
tokenizer's parse error to the caller and leaves the node unmodified — the
wrapped object's value is unchanged and the cached children are not
invalidated (the invalidation and overwrite happen only after a successful
parse). -/
theorem setRawData_error_leaves_node_unchanged (e : PdfError) (v : PdfVariant)
    (c : NodeCtl) :
    SetRawData (Except.error e) v c = (Except.error e, v, c) := rfl

/-- C7 counterexample: the claim says `SetRawData` returns `false` when the
parsed value equals the object's previous value; on a node holding the name
`Foo`, bytes parsing to the same name `Foo` make `SetRawData` return `true`,
not `false`. -/
theorem setRawData_unchanged_value_cex :
    (SetRawData (Except.ok (PdfVariant.nameV "Foo")) (PdfVariant.nameV "Foo")
        ⟨none, false⟩).1 ≠ Except.ok false ∧
    (SetRawData (Except.ok (PdfVariant.nameV "Foo")) (PdfVariant.nameV "Foo")
        ⟨none, false⟩).1 = Except.ok true := by
  refine ⟨?_, rfl⟩
  intro h
  simp [SetRawData] at h

/-- C7 amended: `SetRawData` returns `true` whenever the bytes parse
successfully as a single object literal, regardless of whether the parsed
value differs from the object's previous value (the return value reports a
successful parse, not an actual value change). -/
theorem setRawData_success_returns_true (pv v : PdfVariant) (c : NodeCtl) :
    SetRawData (Except.ok pv) v c =
      (Except.ok true, pv, InvalidateChildren c) := rfl

/-- C8: while the pretend-empty flag is set, `CountChildren` returns 0 and
`GetChild n` returns the no-such-child result for every `n`, without
triggering population and without discarding the cached child list (the node
state is returned untouched); and `SetPretendEmpty true` followed by
`SetPretendEmpty false` restores a non-suppressed node's state — in
particular its populated child list, in the same order — exactly. -/
theorem pretendEmpty_suppression_spec (followRefs : Bool) (doc : Document)
    (v : PdfVariant) (c : NodeCtl) (h : c.pretendEmpty = true) :
    CountChildren followRefs doc v c = (0, c) ∧
    (∀ n, GetChild followRefs doc v c n = (none, c)) ∧
    (∀ c₀ : NodeCtl, c₀.pretendEmpty = false →
      SetPretendEmpty false (SetPretendEmpty true c₀) = c₀) := by
  refine ⟨?_, ?_, ?_⟩
  · simp [CountChildren, h]
  · intro n; simp [GetChild, h]
  · intro c₀ h₀
    obtain ⟨oc, pe⟩ := c₀
    simp at h₀
    simp [SetPretendEmpty, h₀]

theorem pretendEmpty_suppression_spec_witness :
    CountChildren false ⟨PdfVariant.nullV, []⟩
      (PdfVariant.dictV [("A", PdfVariant.nullV)])
      ⟨some [⟨PdfVariant.nullV, ParentageType.PT_Contained, "A"⟩], true⟩ =
      (0, ⟨some [⟨PdfVariant.nullV, ParentageType.PT_Contained, "A"⟩], true⟩) ∧
    GetChild false ⟨PdfVariant.nullV, []⟩
      (PdfVariant.dictV [("A", PdfVariant.nullV)])
      ⟨some [⟨PdfVariant.nullV, ParentageType.PT_Contained, "A"⟩], true⟩ 0 =
      (none, ⟨some [⟨PdfVariant.nullV, ParentageType.PT_Contained, "A"⟩], true⟩) ∧
    SetPretendEmpty false (SetPretendEmpty true
      ⟨some [⟨PdfVariant.nullV, ParentageType.PT_Contained, "A"⟩], false⟩) =
      ⟨some [⟨PdfVariant.nullV, ParentageType.PT_Contained, "A"⟩], false⟩ :=
  ⟨(pretendEmpty_suppression_spec false ⟨PdfVariant.nullV, []⟩
      (PdfVariant.dictV [("A", PdfVariant.nullV)])
      ⟨some [⟨PdfVariant.nullV, ParentageType.PT_Contained, "A"⟩], true⟩ rfl).1,
   (pretendEmpty_suppression_spec false ⟨PdfVariant.nullV, []⟩
      (PdfVariant.dictV [("A", PdfVariant.nullV)])
      ⟨some [⟨PdfVariant.nullV, ParentageType.PT_Contained, "A"⟩], true⟩ rfl).2.1 0,
   (pretendEmpty_suppression_spec false ⟨PdfVariant.nullV, []⟩
      (PdfVariant.dictV [("A", PdfVariant.nullV)])
      ⟨some [⟨PdfVariant.nullV, ParentageType.PT_Contained, "A"⟩], true⟩ rfl).2.2
      ⟨some [⟨PdfVariant.nullV, ParentageType.PT_Contained, "A"⟩], false⟩ rfl⟩

/-- C9: on a node wrapping a dictionary or array whose cached child list (if
populated) agrees with the object — i.e. the underlying object was not
mutated since population — calling `InvalidateChildren` and then re-querying
`CountChildren` and the children reproduces exactly the same child count and
the same children (same wrapped objects and parent keys, in the same
sequence) as before the invalidation. -/
theorem invalidate_then_repopulate_reproduces (followRefs : Bool)
    (doc : Document) (v : PdfVariant) (c : NodeCtl)
    (_hv : v.isDictionary = true ∨ v.isArray = true)
    (hc : ChildrenConsistent followRefs doc v c) :
    (CountChildren followRefs doc v (InvalidateChildren c)).1 =
      (CountChildren followRefs doc v c).1 ∧
    ∀ n, (GetChild followRefs doc v (InvalidateChildren c) n).1 =
      (GetChild followRefs doc v c n).1 := by
  obtain ⟨oc, pe⟩ := c
  cases pe
  · cases oc with
    | none => exact ⟨rfl, fun n => rfl⟩
    | some l =>
      have hl := hc l rfl
      subst hl
      constructor
      · simp [CountChildren, InvalidateChildren, EnsureChildrenLoaded]
      · intro n
        simp [GetChild, InvalidateChildren, EnsureChildrenLoaded]
  · constructor
    · simp [CountChildren, InvalidateChildren]
    · intro n
      simp [GetChild, InvalidateChildren]

theorem invalidate_then_repopulate_reproduces_witness :
    (CountChildren false ⟨PdfVariant.nullV, []⟩
      (PdfVariant.dictV [("A", PdfVariant.nullV)])
      (InvalidateChildren ⟨none, false⟩)).1 =
      (CountChildren false ⟨PdfVariant.nullV, []⟩
        (PdfVariant.dictV [("A", PdfVariant.nullV)]) ⟨none, false⟩).1 ∧
    (GetChild false ⟨PdfVariant.nullV, []⟩
      (PdfVariant.dictV [("A", PdfVariant.nullV)])
      (InvalidateChildren ⟨none, false⟩) 0).1 =
      (GetChild false ⟨PdfVariant.nullV, []⟩
        (PdfVariant.dictV [("A", PdfVariant.nullV)]) ⟨none, false⟩ 0).1 :=
  ⟨(invalidate_then_repopulate_reproduces false ⟨PdfVariant.nullV, []⟩
      (PdfVariant.dictV [("A", PdfVariant.nullV)]) ⟨none, false⟩
      (Or.inl rfl) (fun _ h => nomatch h)).1,
   (invalidate_then_repopulate_reproduces false ⟨PdfVariant.nullV, []⟩
      (PdfVariant.dictV [("A", PdfVariant.nullV)]) ⟨none, false⟩
      (Or.inl rfl) (fun _ h => nomatch h)).2 0⟩

/-- C4: with follow-references enabled, populating the children of a node
wrapping a reference object yields exactly one child of parentage kind
`PT_Referenced` wrapping the resolver's result when resolution succeeds, and
yields zero children — a leaf, with no error raised (`PopulateChildren` is
total) — when resolution fails (dangling reference). -/
theorem populate_reference_child_spec (doc : Document) (a b : Nat) :
    (∀ referee, resolve doc (a, b) = some referee →
      PopulateChildren true doc (.refV a b) =
        [⟨referee, .PT_Referenced, ""⟩]) ∧
    (resolve doc (a, b) = none →
      PopulateChildren true doc (.refV a b) = []) := by
  constructor
  · intro referee h
    simp [PopulateChildren, PdfVariant.isReference, PdfVariant.getReference, h]
  · intro h
    simp [PopulateChildren, PdfVariant.isReference, PdfVariant.getReference, h]

theorem populate_reference_child_spec_witness :
    PopulateChildren true ⟨PdfVariant.nullV, [((5, 0), PdfVariant.dictV [])]⟩
      (PdfVariant.refV 5 0) =
      [⟨PdfVariant.dictV [], ParentageType.PT_Referenced, ""⟩] ∧
    PopulateChildren true ⟨PdfVariant.nullV, [((5, 0), PdfVariant.dictV [])]⟩
      (PdfVariant.refV 9 9) = [] :=
  ⟨(populate_reference_child_spec ⟨PdfVariant.nullV,
      [((5, 0), PdfVariant.dictV [])]⟩ 5 0).1 (PdfVariant.dictV []) rfl,
   (populate_reference_child_spec ⟨PdfVariant.nullV,
      [((5, 0), PdfVariant.dictV [])]⟩ 9 9).2 rfl⟩

/-- C6: the claim says `insertKey(keyName, index)` adds the entry to the
*indexed* node's dictionary; the source's node selection is inverted
(`if (parent.isValid()) node = GetRoot(); else node = internalPointer()`), so
on a valid index for non-root node 1 — an empty dictionary — with the root
node 0 also a dictionary, the key is added to the *root* node's dictionary,
node 1 is left untouched, and `true` is returned; while an invalid index
selects a null node pointer and crashes. -/
theorem insertKey_targets_root_bug :
    modelInsertKey
      ⟨0, [(0, PdfVariant.dictV []), (1, PdfVariant.dictV [])]⟩
      "X" (QModelIndex.valid 1) =
      some (true,
        ⟨0, [(0, PdfVariant.dictV [("X", PdfVariant.nullV)]),
             (1, PdfVariant.dictV [])]⟩) ∧
    modelInsertKey
      ⟨0, [(0, PdfVariant.dictV []), (1, PdfVariant.dictV [])]⟩
      "X" QModelIndex.invalid = none := ⟨rfl, rfl⟩

/-- C5 counterexample: the claim says `CanInsertElement(row)` holds for every
node wrapping an array of `n` elements whenever `0 < row ≤ n`; on a node
wrapping a 3-element array whose cached child list is stale (cached empty —
the state other aliases are left in by the early-return path of
`PrepareForSubtreeChange` after an edit through one alias turned a childless
shared object into this array), `CanInsertElement 2` is `false` although
`0 < 2 ≤ 3`. -/
theorem canInsertElement_stale_cache_cex :
    CanInsertElement false ⟨PdfVariant.nullV, []⟩ 2
      (PdfVariant.arrayV [PdfVariant.nullV, PdfVariant.nullV, PdfVariant.nullV])
      ⟨some [], false⟩ = false ∧
    (0 : Int) < 2 ∧ (2 : Int) ≤ 3 ∧
    (PdfVariant.arrayV
      [PdfVariant.nullV, PdfVariant.nullV, PdfVariant.nullV]).getArr.length = 3 := by
  refine ⟨rfl, by decide, by decide, rfl⟩

/-- C5 amended: on a node wrapping an array of `n` elements that is not
pretend-empty and whose cached child list (if populated) reflects the current
array contents, `CanInsertElement row` holds exactly when `0 < row ≤ n`; it
never holds on a node wrapping a non-array; and under that precondition
`InsertElement row` inserts a null-valued element at 0-based index `row`, the
array's length becomes `n + 1`, elements before index `row` are unchanged,
and pre-existing elements at indices `≥ row` shift up by one. -/
theorem insertElement_boundary_and_effect (followRefs : Bool) (doc : Document)
    (xs : List PdfVariant) (c : NodeCtl) (row : Int)
    (hpe : c.pretendEmpty = false)
    (hc : ChildrenConsistent followRefs doc (.arrayV xs) c) :
    (CanInsertElement followRefs doc row (.arrayV xs) c = true ↔
      0 < row ∧ row ≤ (xs.length : Int)) ∧
    (∀ (v : PdfVariant) (c' : NodeCtl), v.isArray = false →
      CanInsertElement followRefs doc row v c' = false) ∧
    (0 < row → row ≤ (xs.length : Int) →
      InsertElement row (.arrayV xs) =
        .arrayV (xs.take row.toNat ++ .nullV :: xs.drop row.toNat) ∧
      (InsertElement row (.arrayV xs)).getArr.length = xs.length + 1 ∧
      (InsertElement row (.arrayV xs)).getArr[row.toNat]? =
        some PdfVariant.nullV ∧
      (∀ i : Nat, i < row.toNat →
        (InsertElement row (.arrayV xs)).getArr[i]? = xs[i]?) ∧
      (∀ i : Nat, row.toNat ≤ i →
        (InsertElement row (.arrayV xs)).getArr[i + 1]? = xs[i]?)) := by
  have hcc := countChildren_arrayLength followRefs doc xs c hpe hc
  refine ⟨?_, ?_, ?_⟩
  · simp [CanInsertElement, hcc, PdfVariant.isArray]
  · intro v c' hv
    simp [CanInsertElement, hv]
  · intro h0 hn
    have hr : row.toNat ≤ xs.length := by omega
    have htake : (xs.take row.toNat).length = row.toNat := by
      simp [List.length_take]
      omega
    refine ⟨rfl, ?_, ?_, ?_, ?_⟩
    · simp [InsertElement, listInsertAt, PdfVariant.getArr]
      omega
    · simp only [InsertElement, listInsertAt, PdfVariant.getArr]
      rw [List.getElem?_append_right (by omega)]
      simp [htake]
    · intro i hi
      simp only [InsertElement, listInsertAt, PdfVariant.getArr]
      rw [List.getElem?_append_left (by omega)]
      simp [List.getElem?_take, hi]
    · intro i hi
      simp only [InsertElement, listInsertAt, PdfVariant.getArr]
      rw [List.getElem?_append_right (by omega)]
      have hidx : i + 1 - (xs.take row.toNat).length = (i - row.toNat) + 1 := by
        omega
      rw [hidx]
      simp only [List.getElem?_cons_succ, List.getElem?_drop]
      congr 1
      omega

theorem insertElement_boundary_and_effect_witness :
    CanInsertElement false ⟨PdfVariant.nullV, []⟩ 2
      (PdfVariant.arrayV
        [PdfVariant.numberV 1, PdfVariant.numberV 2, PdfVariant.numberV 3])
      ⟨none, false⟩ = true ∧
    InsertElement 2 (PdfVariant.arrayV
        [PdfVariant.numberV 1, PdfVariant.numberV 2, PdfVariant.numberV 3]) =
      PdfVariant.arrayV [PdfVariant.numberV 1, PdfVariant.numberV 2,
        PdfVariant.nullV, PdfVariant.numberV 3] :=
  ⟨(insertElement_boundary_and_effect false ⟨PdfVariant.nullV, []⟩
      [PdfVariant.numberV 1, PdfVariant.numberV 2, PdfVariant.numberV 3]
      ⟨none, false⟩ 2 rfl (fun _ h => nomatch h)).1.mpr (by decide),
   ((insertElement_boundary_and_effect false ⟨PdfVariant.nullV, []⟩
      [PdfVariant.numberV 1, PdfVariant.numberV 2, PdfVariant.numberV 3]
      ⟨none, false⟩ 2 rfl (fun _ h => nomatch h)).2.2 (by decide)
      (by decide)).1.trans rfl⟩

/-- C3 counterexample: the claim says the full prepare/mutate/announce
protocol leaves both aliases reporting identical child lists; starting from a
shared scalar object (zero children) with both alias nodes populated
(consistently, with empty child lists) and editing it through one alias into
a one-element array, `PrepareForSubtreeChange` early-returns ("nothing to
change"), so afterwards the edited alias reports 1 child while the other
alias still reports its stale 0 children. -/
theorem setData_alias_divergence_cex :
    (CountChildren true ⟨PdfVariant.nullV, []⟩
      (setDataProtocol true ⟨PdfVariant.nullV, []⟩
        ⟨PdfVariant.numberV 1, ⟨some [], false⟩, ⟨some [], false⟩⟩
        (PdfVariant.arrayV [PdfVariant.nullV])).obj
      (setDataProtocol true ⟨PdfVariant.nullV, []⟩
        ⟨PdfVariant.numberV 1, ⟨some [], false⟩, ⟨some [], false⟩⟩
        (PdfVariant.arrayV [PdfVariant.nullV])).edited).1 = 1 ∧
    (CountChildren true ⟨PdfVariant.nullV, []⟩
      (setDataProtocol true ⟨PdfVariant.nullV, []⟩
        ⟨PdfVariant.numberV 1, ⟨some [], false⟩, ⟨some [], false⟩⟩
        (PdfVariant.arrayV [PdfVariant.nullV])).obj
      (setDataProtocol true ⟨PdfVariant.nullV, []⟩
        ⟨PdfVariant.numberV 1, ⟨some [], false⟩, ⟨some [], false⟩⟩
        (PdfVariant.arrayV [PdfVariant.nullV])).other).1 = 0 ∧
    (1 : Nat) ≠ 0 := ⟨rfl, rfl, by decide⟩

/-- C3 amended: when the edited node reports at least one child before the
edit (so `PrepareForSubtreeChange` does not take its "nothing to change"
early return), an edit through one alias with the full
prepare/mutate/announce protocol leaves both aliases' nodes reporting
identical child lists — same count, same order, same wrapped objects — and
identical value cells for the shared object afterward. -/
theorem setData_protocol_alias_consistency (followRefs : Bool)
    (doc : Document) (ts : PdfVariant → String) (s : AliasPair)
    (v' : PdfVariant)
    (h : (CountChildren followRefs doc s.obj s.edited).1 ≠ 0) :
    ((CountChildren followRefs doc (setDataProtocol followRefs doc s v').obj
        (setDataProtocol followRefs doc s v').edited).1 =
      (CountChildren followRefs doc (setDataProtocol followRefs doc s v').obj
        (setDataProtocol followRefs doc s v').other).1) ∧
    (∀ n, (GetChild followRefs doc (setDataProtocol followRefs doc s v').obj
        (setDataProtocol followRefs doc s v').edited n).1 =
      (GetChild followRefs doc (setDataProtocol followRefs doc s v').obj
        (setDataProtocol followRefs doc s v').other n).1) ∧
    nodeCellValue ts (setDataProtocol followRefs doc s v') WhichNode.edited =
      nodeCellValue ts (setDataProtocol followRefs doc s v') WhichNode.other := by
  have hprep : PrepareForSubtreeChange followRefs doc s =
      { s with edited := ⟨none, true⟩, other := ⟨none, true⟩ } := by
    unfold PrepareForSubtreeChange
    exact if_neg h
  have hs : setDataProtocol followRefs doc s v' =
      ⟨v', ⟨some (PopulateChildren followRefs doc v'), false⟩,
           ⟨some (PopulateChildren followRefs doc v'), false⟩⟩ := by
    unfold setDataProtocol
    rw [hprep]
    rfl
  rw [hs]
  exact ⟨rfl, fun n => rfl, rfl⟩

theorem setData_protocol_alias_consistency_witness :
    ((CountChildren false ⟨PdfVariant.nullV, []⟩
        (setDataProtocol false ⟨PdfVariant.nullV, []⟩
          ⟨PdfVariant.arrayV [PdfVariant.nullV], ⟨none, false⟩, ⟨some [], true⟩⟩
          (PdfVariant.nameV "Foo")).obj
        (setDataProtocol false ⟨PdfVariant.nullV, []⟩
          ⟨PdfVariant.arrayV [PdfVariant.nullV], ⟨none, false⟩, ⟨some [], true⟩⟩
          (PdfVariant.nameV "Foo")).edited).1 =
      (CountChildren false ⟨PdfVariant.nullV, []⟩
        (setDataProtocol false ⟨PdfVariant.nullV, []⟩
          ⟨PdfVariant.arrayV [PdfVariant.nullV], ⟨none, false⟩, ⟨some [], true⟩⟩
          (PdfVariant.nameV "Foo")).obj
        (setDataProtocol false ⟨PdfVariant.nullV, []⟩
          ⟨PdfVariant.arrayV [PdfVariant.nullV], ⟨none, false⟩, ⟨some [], true⟩⟩
          (PdfVariant.nameV "Foo")).other).1) ∧
    (GetChild false ⟨PdfVariant.nullV, []⟩
        (setDataProtocol false ⟨PdfVariant.nullV, []⟩
          ⟨PdfVariant.arrayV [PdfVariant.nullV], ⟨none, false⟩, ⟨some [], true⟩⟩
          (PdfVariant.nameV "Foo")).obj
        (setDataProtocol false ⟨PdfVariant.nullV, []⟩
          ⟨PdfVariant.arrayV [PdfVariant.nullV], ⟨none, false⟩, ⟨some [], true⟩⟩
          (PdfVariant.nameV "Foo")).edited 0).1 =
      (GetChild false ⟨PdfVariant.nullV, []⟩
        (setDataProtocol false ⟨PdfVariant.nullV, []⟩
          ⟨PdfVariant.arrayV [PdfVariant.nullV], ⟨none, false⟩, ⟨some [], true⟩⟩
          (PdfVariant.nameV "Foo")).obj
        (setDataProtocol false ⟨PdfVariant.nullV, []⟩
          ⟨PdfVariant.arrayV [PdfVariant.nullV], ⟨none, false⟩, ⟨some [], true⟩⟩
          (PdfVariant.nameV "Foo")).other 0).1 ∧
    nodeCellValue (fun _ => "")
      (setDataProtocol false ⟨PdfVariant.nullV, []⟩
        ⟨PdfVariant.arrayV [PdfVariant.nullV], ⟨none, false⟩, ⟨some [], true⟩⟩
        (PdfVariant.nameV "Foo")) WhichNode.edited =
      nodeCellValue (fun _ => "")
        (setDataProtocol false ⟨PdfVariant.nullV, []⟩
          ⟨PdfVariant.arrayV [PdfVariant.nullV], ⟨none, false⟩, ⟨some [], true⟩⟩
          (PdfVariant.nameV "Foo")) WhichNode.other :=
  ⟨(setData_protocol_alias_consistency false ⟨PdfVariant.nullV, []⟩
      (fun _ => "")
      ⟨PdfVariant.arrayV [PdfVariant.nullV], ⟨none, false⟩, ⟨some [], true⟩⟩
      (PdfVariant.nameV "Foo") (by decide)).1,
   (setData_protocol_alias_consistency false ⟨PdfVariant.nullV, []⟩
      (fun _ => "")
      ⟨PdfVariant.arrayV [PdfVariant.nullV], ⟨none, false⟩, ⟨some [], true⟩⟩
      (PdfVariant.nameV "Foo") (by decide)).2.1 0,
   (setData_protocol_alias_consistency false ⟨PdfVariant.nullV, []⟩
      (fun _ => "")
      ⟨PdfVariant.arrayV [PdfVariant.nullV], ⟨none, false⟩, ⟨some [], true⟩⟩
      (PdfVariant.nameV "Foo") (by decide)).2.2⟩

/-- C10: constructing the adapter from a document fails with an
invalid-argument error (and creates no tree) exactly when the trailer is not
a dictionary, the trailer lacks a `Root` key, the `Root` entry is not a
reference, or that reference does not resolve to a dictionary object; and
for every document passing all four checks the created tree is rooted at the
resolved catalog object with follow-references enabled. -/
theorem setupModelData_checks_spec (doc : Document) :
    ((∃ t, setupModelData doc = Except.ok t) ↔
      (doc.trailer.isDictionary = true ∧
        ∃ a b catalog,
          dictGetKey doc.trailer.getDict "Root" = some (.refV a b) ∧
          resolve doc (a, b) = some catalog ∧
          catalog.isDictionary = true)) ∧
    (∀ a b catalog,
      doc.trailer.isDictionary = true →
      dictGetKey doc.trailer.getDict "Root" = some (.refV a b) →
      resolve doc (a, b) = some catalog →
      catalog.isDictionary = true →
      setupModelData doc = Except.ok ⟨catalog, true⟩) := by
  have hrun : ∀ (a b : Nat) (catalog : PdfVariant),
      doc.trailer.isDictionary = true →
      dictGetKey doc.trailer.getDict "Root" = some (.refV a b) →
      resolve doc (a, b) = some catalog →
      catalog.isDictionary = true →
      setupModelData doc = Except.ok ⟨catalog, true⟩ := by
    intro a b catalog h1 h2 h3 h4
    unfold setupModelData
    rw [h1, dictHasKey_eq_isSome, h2]
    simp only [Option.isSome_some, Bool.not_true, Bool.false_eq_true,
      if_false, PdfVariant.isReference, PdfVariant.getReference, h3, h4]
  refine ⟨⟨?_, ?_⟩, hrun⟩
  · rintro ⟨t, ht⟩
    unfold setupModelData at ht
    by_cases h1 : doc.trailer.isDictionary = true
    · rw [h1] at ht
      simp only [Bool.not_true, Bool.false_eq_true, if_false] at ht
      rw [dictHasKey_eq_isSome] at ht
      rcases hk : dictGetKey doc.trailer.getDict "Root" with _ | catalogRef
      · rw [hk] at ht
        simp at ht
      · rw [hk] at ht
        simp only [Option.isSome_some, Bool.not_true, Bool.false_eq_true,
          if_false] at ht
        cases catalogRef with
        | refV a b =>
          simp only [PdfVariant.isReference, Bool.not_true,
            Bool.false_eq_true, if_false, PdfVariant.getReference] at ht
          rcases hres : resolve doc (a, b) with _ | catalog
          · rw [hres] at ht
            simp at ht
          · rw [hres] at ht
            by_cases h4 : catalog.isDictionary = true
            · refine ⟨h1, a, b, catalog, ?_, hres, h4⟩
              first
              | exact hk
              | rfl
            · rw [Bool.not_eq_true] at h4
              simp [h4] at ht
        | nullV => simp [PdfVariant.isReference] at ht
        | boolV x => simp [PdfVariant.isReference] at ht
        | numberV x => simp [PdfVariant.isReference] at ht
        | realV => simp [PdfVariant.isReference] at ht
        | strV x => simp [PdfVariant.isReference] at ht
        | hexV x => simp [PdfVariant.isReference] at ht
        | nameV x => simp [PdfVariant.isReference] at ht
        | arrayV x => simp [PdfVariant.isReference] at ht
        | dictV x => simp [PdfVariant.isReference] at ht
        | rawV => simp [PdfVariant.isReference] at ht
    · rw [Bool.not_eq_true] at h1
      rw [h1] at ht
      simp at ht
  · rintro ⟨h1, a, b, catalog, hk, hres, h4⟩
    exact ⟨⟨catalog, true⟩, hrun a b catalog h1 hk hres h4⟩

theorem setupModelData_checks_spec_witness :
    setupModelData ⟨PdfVariant.dictV [("Root", PdfVariant.refV 1 0)],
        [((1, 0), PdfVariant.dictV [("K", PdfVariant.nullV)])]⟩ =
      Except.ok ⟨PdfVariant.dictV [("K", PdfVariant.nullV)], true⟩ :=
  (setupModelData_checks_spec
    ⟨PdfVariant.dictV [("Root", PdfVariant.refV 1 0)],
      [((1, 0), PdfVariant.dictV [("K", PdfVariant.nullV)])]⟩).2
    1 0 (PdfVariant.dictV [("K", PdfVariant.nullV)]) rfl rfl rfl rfl

/-! ## Alias-index invariant (C1) -/

theorem erasePair_perm {α : Type} [DecidableEq α] {l : List α} {a : α}
    (h : a ∈ l) : l.Perm (a :: erasePair l a) := by
  induction l with
  | nil => cases h
  | cons x xs ih =>
    by_cases hx : x = a
    · subst hx
      simp [erasePair]
    · have hmem : a ∈ xs := by
        cases h with
        | head => exact absurd rfl hx
        | tail _ h' => exact h'
      have step2 : (x :: xs).Perm (x :: a :: erasePair xs a) :=
        (ih hmem).cons x
      have step3 : (x :: a :: erasePair xs a).Perm (a :: x :: erasePair xs a) :=
        List.Perm.swap a x _
      have hfin : erasePair (x :: xs) a = x :: erasePair xs a := by
        simp [erasePair, hx]
      rw [hfin]
      exact step2.trans step3

/-- The alias multimap holds exactly the `(object, node)` pairs of the live
nodes, as a multiset. -/
def AliasInv (s : TreeAliasState) : Prop :=
  s.nodeAliases.Perm (s.live.map (fun p => (p.2, p.1)))

theorem treeReachable_aliasInv {s : TreeAliasState} (h : TreeReachable s) :
    AliasInv s := by
  induction h with
  | refl => exact List.Perm.refl []
  | tail _ hstep ih =>
    cases hstep with
    | construct n o hfresh =>
      unfold AliasInv NodeCreated at *
      simpa using ih.cons (o, n)
    | destruct n o hlive al' hdel =>
      unfold NodeDeleted at hdel
      split at hdel
      case isTrue hmem =>
        cases hdel
        unfold AliasInv at *
        have h1 := erasePair_perm hmem
        have h2 := erasePair_perm hlive
        have h3 := (h2.map (fun (p : NodeId × ObjId) => (p.2, p.1))).trans
          (List.Perm.refl _)
        have h4 := h1.symm.trans (ih.trans h3)
        exact h4.cons_inv
      case isFalse => cases hdel

/-- C1: in every state reachable by any sequence of model-node constructions
and destructions, `CountAliases object` equals the number of live nodes whose
`GetObject` identity equals `object` (each construction inserted exactly one
`(object, node)` pair and each destruction removed exactly that pair), and
destroying any live node finds its `(object, node)` pair in the alias map —
the fatal internal-consistency error in `NodeDeleted` is never hit. -/
theorem alias_index_matches_live_nodes {s : TreeAliasState}
    (h : TreeReachable s) :
    (∀ o, CountAliases s o = liveNodeCount s o) ∧
    (∀ n o, (n, o) ∈ s.live → NodeDeleted s.nodeAliases n o ≠ none) := by
  have hinv := treeReachable_aliasInv h
  constructor
  · intro o
    unfold CountAliases liveNodeCount
    rw [(hinv.filter (fun p => decide (p.1 = o))).length_eq]
    rw [List.filter_map]
    rw [List.length_map]
    rfl
  · intro n o hmem
    have hal : (o, n) ∈ s.nodeAliases := by
      have hm : (o, n) ∈ s.live.map (fun p => (p.2, p.1)) :=
        List.mem_map_of_mem (fun p => (p.2, p.1)) hmem
      exact hinv.mem_iff.mpr hm
    unfold NodeDeleted
    simp [hal]

theorem alias_index_matches_live_nodes_witness :
    CountAliases ⟨[(7, 3)], [(3, 7)]⟩ 3 = liveNodeCount ⟨[(7, 3)], [(3, 7)]⟩ 3 ∧
    NodeDeleted [(3, 7)] 7 3 ≠ none :=
  ⟨(alias_index_matches_live_nodes
      (Relation.ReflTransGen.single
        (TreeStep.construct ⟨[], []⟩ 7 3 (by simp)))).1 3,
   (alias_index_matches_live_nodes
      (Relation.ReflTransGen.single
        (TreeStep.construct ⟨[], []⟩ 7 3 (by simp)))).2 7 3 (by simp)⟩
